import Mathlib

/-
Verification of the retrieval and groundedness-validation core of the
backchat repository (a retrieval-augmented chat backend written in
TypeScript).

The development shallowly embeds the relevant TypeScript functions:

* `cosineSimilarity`           -- src/rag.ts lines 69-85 (identical copies
                                  in the part_003 revisions)
* `retrieveContext`            -- src/rag.ts lines 131-182 and the part_003
                                  revision (which checks for a null query
                                  embedding)
* `loadKnowledge` (cache miss) -- src/rag.ts lines 107-126
* `validateResponseHybrid`     -- part_002 lines 246-302 (with its helper
                                  functions from lines 186-243)
* the margin/keyword retrieval policy variant -- part_004 lines 29-88

Conventions of the embedding:

* JavaScript numbers are modelled as real numbers (`ℝ`); floating-point
  rounding is out of scope.
* Asynchronous calls to the external embedding backend are modelled by
  passing the backend's reply as an explicit argument (an oracle): a
  function for batch use, a single value for a single call.  A rejected
  promise (a thrown exception) is modelled with `Except`, a resolved
  `null` with `Option`.
* JavaScript strings are modelled as Lean `String`s.  `toLowerCase` is
  modelled on the ASCII and Latin-1 ranges (`jsLowerChar`), which covers
  every cased character of the Spanish text this code base works with.
  The refusal marker compared against below consists of case-less symbols,
  ASCII letters and `ó`; in JavaScript no character outside the modelled
  ranges lowercases to any of those (the one length-changing lowercase
  mapping, dotted capital I, yields `i` followed by a combining mark,
  which cannot complete the marker), so the marker comparisons agree
  with JavaScript on every answer.
-/

noncomputable section

namespace Backchat

/-- A knowledge-base entry: `interface Chunk { text; embedding; id? }`
(src/rag.ts lines 7-11). -/
structure Chunk where
  text : String
  embedding : List ℝ
  id : Option ℕ

/-- A ranked entry `{ text, score }` as produced inside `retrieveContext`. -/
structure Scored where
  text : String
  score : ℝ

/-! ### String helpers shared by several embedded functions -/

/-- Model of JavaScript `String.prototype.trim` (strip whitespace from both
ends), written on the character list so that it evaluates easily. -/
def jsTrim (s : String) : String :=
  String.mk (((s.toList.dropWhile Char.isWhitespace).reverse.dropWhile
    Char.isWhitespace).reverse)

/-- Simple lowercase mapping of JavaScript `String.prototype.toLowerCase`
on the ASCII and Latin-1 blocks: `A`-`Z` and `À`-`Þ` (excluding the
multiplication sign) map to their lowercase forms 32 code points higher;
every other character is left unchanged. -/
def jsLowerChar (c : Char) : Char :=
  if (('A' ≤ c) && (c ≤ 'Z')) ||
      (((0xC0 ≤ c.toNat) && (c.toNat ≤ 0xDE)) && !(c.toNat == 0xD7))
  then Char.ofNat (c.toNat + 32)
  else c

/-- Model of JavaScript `String.prototype.toLowerCase` (see `jsLowerChar`
for the covered character ranges). -/
def jsToLowerCase (s : String) : String :=
  String.mk (s.toList.map jsLowerChar)

/-- Does the first character list start with the second one? -/
def leadingMatch : List Char → List Char → Bool
  | _, [] => true
  | [], _ :: _ => false
  | c :: cs, p :: ps => c == p && leadingMatch cs ps

/-- Is the second character list a contiguous segment of the first one? -/
def includesList : List Char → List Char → Bool
  | [], sub => sub.isEmpty
  | c :: cs, sub => leadingMatch (c :: cs) sub || includesList cs sub

/-- Model of JavaScript `String.prototype.includes`. -/
def jsIncludes (s sub : String) : Bool :=
  includesList s.toList sub.toList

/-- Splitting at every single space character, as JavaScript
`text.split(" ")` does (adjacent spaces yield empty segments). -/
def splitSpaceAux : List Char → List Char → List String
  | [], acc => [String.mk acc.reverse]
  | c :: cs, acc =>
    if c = ' ' then String.mk acc.reverse :: splitSpaceAux cs []
    else splitSpaceAux cs (c :: acc)

/-- Word count in the sense of `text.split(" ").length` (split on single
spaces, as used by the `minWords` filter of `retrieveContext`). -/
def jsWordCount (s : String) : ℕ :=
  (splitSpaceAux s.toList []).length

/-! ### Cosine similarity (src/rag.ts lines 69-85) -/

/-- The running sum `a[0]*b[0] + ... + a[n-1]*b[n-1]` accumulated by the
loop of `cosineSimilarity`;  indices past the end contribute `0`, but the
function is only used with `n` at most the length of both lists. -/
def dotAux (a b : List ℝ) (n : ℕ) : ℝ :=
  ∑ i ∈ Finset.range n, a.getD i 0 * b.getD i 0

/-- `cosineSimilarity` from src/rag.ts lines 69-85: the loop runs over
`length = min(a.length, b.length)` and accumulates `dot`, `magA`, `magB`;
an empty range or a zero denominator gives `0`. -/
def cosineSimilarity (a b : List ℝ) : ℝ :=
  let length := min a.length b.length
  if length = 0 then 0
  else
    let denominator := Real.sqrt (dotAux a a length) * Real.sqrt (dotAux b b length)
    if denominator = 0 then 0 else dotAux a b length / denominator

/-- Sum of squared entries of a vector (the square of its magnitude). -/
def sumSquares (l : List ℝ) : ℝ :=
  (l.map (fun x => x * x)).sum

lemma dotAux_comm (a b : List ℝ) (n : ℕ) : dotAux a b n = dotAux b a n := by
  unfold dotAux
  exact Finset.sum_congr rfl fun i _ => mul_comm _ _

lemma dotAux_self_nonneg (a : List ℝ) (n : ℕ) : 0 ≤ dotAux a a n :=
  Finset.sum_nonneg fun _ _ => mul_self_nonneg _

lemma dotAux_self_eq_sq (a : List ℝ) (n : ℕ) :
    dotAux a a n = ∑ i ∈ Finset.range n, a.getD i 0 ^ 2 := by
  unfold dotAux
  exact Finset.sum_congr rfl fun i _ => (pow_two _).symm

/-- Cauchy-Schwarz, in the form needed for the cosine bound. -/
lemma abs_dotAux_le (a b : List ℝ) (n : ℕ) :
    |dotAux a b n| ≤ Real.sqrt (dotAux a a n) * Real.sqrt (dotAux b b n) := by
  have hub : dotAux a b n ≤ Real.sqrt (dotAux a a n) * Real.sqrt (dotAux b b n) := by
    have h := Real.sum_mul_le_sqrt_mul_sqrt (Finset.range n)
      (fun i => a.getD i 0) (fun i => b.getD i 0)
    rw [dotAux_self_eq_sq, dotAux_self_eq_sq]
    exact h
  have hlb : -(dotAux a b n) ≤ Real.sqrt (dotAux a a n) * Real.sqrt (dotAux b b n) := by
    have h := Real.sum_mul_le_sqrt_mul_sqrt (Finset.range n)
      (fun i => -(a.getD i 0)) (fun i => b.getD i 0)
    simp only [neg_mul, Finset.sum_neg_distrib, neg_sq] at h
    rw [dotAux_self_eq_sq, dotAux_self_eq_sq]
    simpa [dotAux] using h
  rw [abs_le]
  exact ⟨neg_le.mp hlb, hub⟩

lemma cosineSimilarity_comm (a b : List ℝ) :
    cosineSimilarity a b = cosineSimilarity b a := by
  simp only [cosineSimilarity]
  rw [Nat.min_comm b.length a.length, dotAux_comm b a,
    mul_comm (Real.sqrt (dotAux b b (min a.length b.length)))
      (Real.sqrt (dotAux a a (min a.length b.length)))]

lemma abs_cosineSimilarity_le_one (a b : List ℝ) : |cosineSimilarity a b| ≤ 1 := by
  simp only [cosineSimilarity]
  split_ifs with h1 h2
  · simp
  · simp
  · have hnonneg : 0 ≤ Real.sqrt (dotAux a a (min a.length b.length)) *
        Real.sqrt (dotAux b b (min a.length b.length)) :=
      mul_nonneg (Real.sqrt_nonneg _) (Real.sqrt_nonneg _)
    have hpos : 0 < Real.sqrt (dotAux a a (min a.length b.length)) *
        Real.sqrt (dotAux b b (min a.length b.length)) :=
      lt_of_le_of_ne hnonneg (Ne.symm h2)
    rw [abs_div, abs_of_nonneg hnonneg, div_le_one hpos]
    exact abs_dotAux_le a b _

lemma sumSquares_eq_dotAux (a : List ℝ) : sumSquares a = dotAux a a a.length := by
  unfold sumSquares dotAux
  induction a with
  | nil => simp
  | cons c t ih =>
    rw [List.map_cons, List.sum_cons, List.length_cons, Finset.sum_range_succ']
    simp only [List.getD_cons_succ, List.getD_cons_zero]
    rw [ih]
    exact add_comm _ _

lemma cosineSimilarity_zero_left (a b : List ℝ) (hlen : a.length = b.length)
    (h : sumSquares a = 0) : cosineSimilarity a b = 0 := by
  have hmin : min a.length b.length = a.length := by rw [hlen, min_self]
  simp only [cosineSimilarity]
  by_cases h0 : min a.length b.length = 0
  · rw [if_pos h0]
  · rw [if_neg h0]
    have hz : dotAux a a (min a.length b.length) = 0 := by
      rw [hmin, ← sumSquares_eq_dotAux, h]
    rw [hz, Real.sqrt_zero, zero_mul, if_pos rfl]

/-- C3: for every pair of equal-length real vectors, `cosineSimilarity` is
symmetric, its value lies in `[-1, 1]`, and a zero-magnitude input (which
includes the case of two empty vectors) yields exactly `0`.  In this
real-number model the result is a real number, so it can never be `NaN` or
infinite. -/
theorem cosineSimilarity_symm_bounded_safe (a b : List ℝ)
    (hlen : a.length = b.length) :
    cosineSimilarity a b = cosineSimilarity b a ∧
    -1 ≤ cosineSimilarity a b ∧ cosineSimilarity a b ≤ 1 ∧
    ((sumSquares a = 0 ∨ sumSquares b = 0) → cosineSimilarity a b = 0) := by
  have habs := abs_cosineSimilarity_le_one a b
  rw [abs_le] at habs
  refine ⟨cosineSimilarity_comm a b, habs.1, habs.2, fun h => ?_⟩
  rcases h with h | h
  · exact cosineSimilarity_zero_left a b hlen h
  · rw [cosineSimilarity_comm]
    exact cosineSimilarity_zero_left b a hlen.symm h

/-- Witness for C3 at the concrete pair `[0, 0]`, `[3, 4]`: the lengths
agree, the value is symmetric, and the zero-magnitude first argument forces
the result `0`. -/
theorem cosineSimilarity_symm_bounded_safe_witness :
    (([0, 0] : List ℝ).length = ([3, 4] : List ℝ).length) ∧
    cosineSimilarity [0, 0] [3, 4] = cosineSimilarity [3, 4] [0, 0] ∧
    cosineSimilarity [0, 0] [3, 4] = 0 := by
  refine ⟨rfl, (cosineSimilarity_symm_bounded_safe [0, 0] [3, 4] rfl).1,
    (cosineSimilarity_symm_bounded_safe [0, 0] [3, 4] rfl).2.2.2 (Or.inl ?_)⟩
  simp [sumSquares]

/-! ### Ranking order

The JavaScript comparator `(a, b) => b.score - a.score` orders entries by
descending score; `Array.prototype.sort` is a stable sort, whose result on
a total preorder comparator is the unique stable descending reordering.
It is modelled with `List.insertionSort`, which is stable as well. -/

/-- The order in which `retrieveContext` ranks scored chunks: descending
score. -/
def descScore (x y : Scored) : Prop := y.score ≤ x.score

instance : DecidableRel descScore :=
  fun x y => inferInstanceAs (Decidable (y.score ≤ x.score))

instance : IsTotal Scored descScore := ⟨fun a b => le_total b.score a.score⟩

instance : IsTrans Scored descScore := ⟨fun _ _ _ hab hbc => le_trans hbc hab⟩

/-- Evaluation helper: the similarity of the one-entry unit vectors is `1`. -/
lemma cosineSimilarity_single_one : cosineSimilarity [(1 : ℝ)] [1] = 1 := by
  norm_num [cosineSimilarity, dotAux, Real.sqrt_one]

namespace Rag

/-!  `retrieveContext` from src/rag.ts lines 131-182.  The call
`await getEmbedding(question)` is modelled by the `qEmbedding` argument:
in src/rag.ts `getEmbedding` either returns a vector or throws, so the
argument is an `Except`; the part_003 revision returns `null` instead of
throwing and checks for it, so there the argument is an `Option`
(see `retrieveContextNullable`). -/

/-- The `ranked` list of `retrieveContext`: every chunk of the store scored
against the query embedding (src/rag.ts lines 142-147), sorted by
descending score. -/
def ranked (qEmbedding : List ℝ) (store : List Chunk) : List Scored :=
  List.insertionSort descScore
    (store.map fun chunk => ⟨chunk.text, cosineSimilarity qEmbedding chunk.embedding⟩)

/-- The `relevant` list of `retrieveContext` (src/rag.ts lines 161-163):
keep ranked chunks with `score >= minScore` and at least `minWords` words,
then take the first `topN`. -/
def relevant (qEmbedding : List ℝ) (store : List Chunk)
    (topN minWords : ℕ) (minScore : ℝ) : List Scored :=
  ((ranked qEmbedding store).filter fun r =>
    decide (minScore ≤ r.score ∧ minWords ≤ jsWordCount r.text)).take topN

/-- The part of `retrieveContext` after the query has been embedded
(src/rag.ts lines 142-181): rank, filter, and either report no context
(`null`) or return the surviving texts joined by blank lines. -/
def retrieveCore (qEmbedding : List ℝ) (store : List Chunk)
    (topN minWords : ℕ) (minScore : ℝ) : Option String :=
  let rel := relevant qEmbedding store topN minWords minScore
  if rel.length = 0 then none
  else some (String.intercalate ("\n\n") (rel.map Scored.text))

/-- `retrieveContext` from src/rag.ts lines 131-182.  An empty knowledge
base short-circuits to `null` before the embedding call; afterwards a
thrown embedding error propagates (there is no try/catch around
`getEmbedding` here). -/
def retrieveContext (store : List Chunk) (qEmbedding : Except String (List ℝ))
    (topN minWords : ℕ) (minScore : ℝ) : Except String (Option String) :=
  if store.length = 0 then Except.ok none
  else
    match qEmbedding with
    | Except.error e => Except.error e
    | Except.ok q => Except.ok (retrieveCore q store topN minWords minScore)

/-- `retrieveContext` of the part_003 revision (lines 179-229 there): the
same pipeline, but `getEmbedding` resolves to `null` on any failure and
the function returns `null` in that case. -/
def retrieveContextNullable (store : List Chunk) (qEmbedding : Option (List ℝ))
    (topN minWords : ℕ) (minScore : ℝ) : Option String :=
  if store.length = 0 then none
  else
    match qEmbedding with
    | none => none
    | some q => retrieveCore q store topN minWords minScore

end Rag

/-- C1: the `relevant` selection of `retrieveContext` never exceeds `topN`
entries, every selected entry passes the `minScore` and `minWords` filters,
the selection is in descending-score order, and the returned context is
exactly the selected texts joined by double newlines (with `null` signalled
when nothing survives). -/
theorem retrieveContext_topN_filters_sorted (store : List Chunk)
    (q : List ℝ) (topN minWords : ℕ) (minScore : ℝ) :
    (Rag.relevant q store topN minWords minScore).length ≤ topN ∧
    (∀ r ∈ Rag.relevant q store topN minWords minScore,
      minScore ≤ r.score ∧ minWords ≤ jsWordCount r.text) ∧
    List.Sorted descScore (Rag.relevant q store topN minWords minScore) ∧
    Rag.retrieveContext store (Except.ok q) topN minWords minScore =
      Except.ok
        (if (Rag.relevant q store topN minWords minScore).length = 0 then none
         else some (String.intercalate ("\n\n")
           ((Rag.relevant q store topN minWords minScore).map Scored.text))) := by
  refine ⟨?_, ?_, ?_, ?_⟩
  · rw [Rag.relevant, List.length_take]
    exact min_le_left _ _
  · intro r hr
    rw [Rag.relevant] at hr
    have h1 : r ∈ List.filter
        (fun r => decide (minScore ≤ r.score ∧ minWords ≤ jsWordCount r.text))
        (Rag.ranked q store) := List.take_subset _ _ hr
    have h2 := List.of_mem_filter h1
    exact of_decide_eq_true h2
  · have hsorted : List.Sorted descScore (Rag.ranked q store) :=
      List.sorted_insertionSort descScore _
    exact List.Pairwise.sublist (List.take_sublist _ _) (hsorted.filter _)
  · by_cases hs : store.length = 0
    · have hstore : store = [] := List.length_eq_zero.mp hs
      subst hstore
      simp [Rag.retrieveContext, Rag.relevant, Rag.ranked]
    · rw [Rag.retrieveContext, if_neg hs]
      rfl

/-- Witness for C1: a one-chunk store whose single five-word passage scores
`1` against the query is returned as the whole context. -/
theorem retrieveContext_topN_filters_sorted_witness :
    Rag.retrieveContext [⟨"uno dos tres cuatro cinco", [1], some 0⟩]
      (Except.ok [1]) 2 5 (0.65 : ℝ) =
      Except.ok (some ("uno dos tres cuatro cinco")) := by
  have h := (retrieveContext_topN_filters_sorted
    [⟨"uno dos tres cuatro cinco", [1], some 0⟩] [1] 2 5 (0.65 : ℝ)).2.2.2
  have hwords : jsWordCount ("uno dos tres cuatro cinco") = 5 := rfl
  have hsc : decide ((0.65 : ℝ) ≤ (1 : ℝ)) = true := decide_eq_true (by norm_num)
  have hwc : decide ((5 : ℕ) ≤ jsWordCount ("uno dos tres cuatro cinco")) = true :=
    decide_eq_true (le_of_eq hwords.symm)
  have hrel : Rag.relevant [1] [⟨"uno dos tres cuatro cinco", [1], some 0⟩]
      2 5 (0.65 : ℝ) = [⟨"uno dos tres cuatro cinco", 1⟩] := by
    simp [Rag.relevant, Rag.ranked, cosineSimilarity_single_one, hsc, hwc]
  rw [h, hrel]
  rfl

/-- C2 counterexample: in src/rag.ts, `getEmbedding` signals an unusable
backend reply by throwing, and `retrieveContext` has no handler for it, so
on a nonempty knowledge base the failure propagates as an error instead of
producing the empty result. -/
theorem retrieveContext_omitted_raises_cex :
    Rag.retrieveContext [⟨"uno dos tres cuatro cinco", [1], some 0⟩]
      (Except.error ("boom")) 2 5 (0.65 : ℝ) = Except.error ("boom") ∧
    Rag.retrieveContext [⟨"uno dos tres cuatro cinco", [1], some 0⟩]
      (Except.error ("boom")) 2 5 (0.65 : ℝ) ≠ Except.ok none := by
  have h : Rag.retrieveContext [⟨"uno dos tres cuatro cinco", [1], some 0⟩]
      (Except.error ("boom")) 2 5 (0.65 : ℝ) = Except.error ("boom") := rfl
  refine ⟨h, ?_⟩
  rw [h]
  intro hc
  exact Except.noConfusion hc

/-- C2 (amended): in the part_003 revision an omitted (`null`) query
embedding makes `retrieveContext` return the empty result for every store;
in the src/rag.ts revision the embedding failure is a thrown error which
`retrieveContext` propagates whenever the store is nonempty, while an
empty store still short-circuits to the empty result before the embedding
call.  In no case are passages returned. -/
theorem retrieveContext_omitted_fail_closed (store : List Chunk)
    (topN minWords : ℕ) (minScore : ℝ) (e : String) :
    Rag.retrieveContextNullable store none topN minWords minScore = none ∧
    (store.length ≠ 0 →
      Rag.retrieveContext store (Except.error e) topN minWords minScore =
        Except.error e) ∧
    Rag.retrieveContext [] (Except.error e) topN minWords minScore =
      Except.ok none := by
  refine ⟨?_, fun hs => ?_, rfl⟩
  · rw [Rag.retrieveContextNullable]
    by_cases h : store.length = 0
    · rw [if_pos h]
    · rw [if_neg h]
  · rw [Rag.retrieveContext, if_neg hs]

/-- Witness for the amended C2 on a concrete one-chunk store. -/
theorem retrieveContext_omitted_fail_closed_witness :
    Rag.retrieveContextNullable [⟨"uno dos tres cuatro cinco", [1], some 0⟩]
      none 2 5 (0.65 : ℝ) = none ∧
    Rag.retrieveContext [⟨"uno dos tres cuatro cinco", [1], some 0⟩]
      (Except.error ("boom")) 2 5 (0.65 : ℝ) = Except.error ("boom") :=
  ⟨(retrieveContext_omitted_fail_closed
      [⟨"uno dos tres cuatro cinco", [1], some 0⟩] 2 5 (0.65 : ℝ) ("boom")).1,
   (retrieveContext_omitted_fail_closed
      [⟨"uno dos tres cuatro cinco", [1], some 0⟩] 2 5 (0.65 : ℝ) ("boom")).2.1
     (by decide)⟩

/-! ### Ingestion: the cache-miss path of `loadKnowledge`
(src/rag.ts lines 102-126).  The per-passage calls to `getEmbedding` are
wrapped in a try/catch: a failed passage is logged and skipped, a
successful one is pushed with its original index as `id`.  The loop is
modelled with the embedding backend as an oracle `embedRes` (`none` for a
thrown error or an omitted embedding). -/

namespace Rag

/-- The ingestion loop body of `loadKnowledge` (src/rag.ts lines 107-119):
`i` is the loop counter, failed passages are skipped, successful ones are
appended as `{ text, embedding, id: i }`. -/
def buildKnowledge (embedRes : String → Option (List ℝ)) :
    ℕ → List String → List Chunk
  | _, [] => []
  | i, chunk :: rest =>
    match embedRes chunk with
    | some embedding => ⟨chunk, embedding, some i⟩ :: buildKnowledge embedRes (i + 1) rest
    | none => buildKnowledge embedRes (i + 1) rest

/-- Result of the cache-miss path: the in-memory store and the cache file
content written by `fs.writeFileSync(cachePath, JSON.stringify(knowledgeBase))`
(src/rag.ts line 122), which is the serialized store itself. -/
structure LoadResult where
  store : List Chunk
  cacheWritten : List Chunk

/-- The cache-miss path of `loadKnowledge`: run the ingestion loop over the
chunked document, then persist the resulting store. -/
def loadKnowledgeMiss (embedRes : String → Option (List ℝ))
    (chunks : List String) : LoadResult :=
  let kb := buildKnowledge embedRes 0 chunks
  ⟨kb, kb⟩

lemma buildKnowledge_kept (f : String → Option (List ℝ)) :
    ∀ (i : ℕ) (l : List String), ∀ c ∈ buildKnowledge f i l,
      f c.text = some c.embedding := by
  intro i l
  induction l generalizing i with
  | nil => intro c hc; simp [buildKnowledge] at hc
  | cons t rest ih =>
    intro c hc
    rcases hft : f t with _ | e
    · rw [buildKnowledge, hft] at hc
      exact ih _ c hc
    · rw [buildKnowledge, hft] at hc
      rcases List.mem_cons.mp hc with hceq | hmem
      · subst hceq
        exact hft
      · exact ih _ c hmem

lemma buildKnowledge_texts (f : String → Option (List ℝ)) :
    ∀ (i : ℕ) (l : List String),
      (buildKnowledge f i l).map Chunk.text = l.filter fun t => (f t).isSome := by
  intro i l
  induction l generalizing i with
  | nil => simp [buildKnowledge]
  | cons t rest ih =>
    rcases hft : f t with _ | e
    · simp [buildKnowledge, hft, ih]
    · simp [buildKnowledge, hft, ih]

lemma buildKnowledge_complete (f : String → Option (List ℝ)) :
    ∀ (i : ℕ) (l : List String) (t : String), t ∈ l → ∀ e : List ℝ,
      f t = some e →
      ∃ c ∈ buildKnowledge f i l, c.text = t ∧ c.embedding = e := by
  intro i l
  induction l generalizing i with
  | nil => intro t ht; simp at ht
  | cons hd rest ih =>
    intro t ht e hfe
    rcases List.mem_cons.mp ht with heq | hmem
    · subst heq
      refine ⟨⟨t, e, some i⟩, ?_, rfl, rfl⟩
      rw [buildKnowledge, hfe]
      exact List.mem_cons_self _ _
    · obtain ⟨c, hc, hct, hce⟩ := ih (i + 1) t hmem e hfe
      refine ⟨c, ?_, hct, hce⟩
      rcases hfhd : f hd with _ | e2
      · rw [buildKnowledge, hfhd]
        exact hc
      · rw [buildKnowledge, hfhd]
        exact List.mem_cons_of_mem _ hc

end Rag

/-- C8: on the cache-miss path of `loadKnowledge`, a failed embedding for
one passage never aborts ingestion of the rest: every stored chunk carries
an embedding actually obtained for its text, the stored texts are exactly
the passages whose embedding succeeded (in document order), every passage
with a successful embedding is kept, and what is persisted is exactly the
resulting store. -/
theorem loadKnowledge_skips_failed_embeddings
    (embedRes : String → Option (List ℝ)) (chunks : List String) :
    (∀ c ∈ (Rag.loadKnowledgeMiss embedRes chunks).store,
      embedRes c.text = some c.embedding) ∧
    (Rag.loadKnowledgeMiss embedRes chunks).store.map Chunk.text =
      chunks.filter (fun t => (embedRes t).isSome) ∧
    (∀ t ∈ chunks, ∀ e : List ℝ, embedRes t = some e →
      ∃ c ∈ (Rag.loadKnowledgeMiss embedRes chunks).store,
        c.text = t ∧ c.embedding = e) ∧
    (Rag.loadKnowledgeMiss embedRes chunks).cacheWritten =
      (Rag.loadKnowledgeMiss embedRes chunks).store := by
  refine ⟨?_, ?_, ?_, rfl⟩
  · exact Rag.buildKnowledge_kept embedRes 0 chunks
  · exact Rag.buildKnowledge_texts embedRes 0 chunks
  · intro t ht e hfe
    exact Rag.buildKnowledge_complete embedRes 0 chunks t ht e hfe

/-- Witness for C8: with a backend that fails on the middle passage, the
store keeps exactly the two surviving passages and the successful third
passage is present with its embedding. -/
theorem loadKnowledge_skips_failed_embeddings_witness :
    (Rag.loadKnowledgeMiss
        (fun t => if t = ("malo") then none else some [1])
        ["bueno uno", "malo", "bueno dos"]).store.map Chunk.text =
      ["bueno uno", "bueno dos"] ∧
    (∃ c ∈ (Rag.loadKnowledgeMiss
        (fun t => if t = ("malo") then none else some [1])
        ["bueno uno", "malo", "bueno dos"]).store,
      c.text = ("bueno dos") ∧ c.embedding = [1]) := by
  refine ⟨?_, ?_⟩
  · exact (loadKnowledge_skips_failed_embeddings
      (fun t => if t = ("malo") then none else some [1])
      ["bueno uno", "malo", "bueno dos"]).2.1.trans (by rfl)
  · exact (loadKnowledge_skips_failed_embeddings
      (fun t => if t = ("malo") then none else some [1])
      ["bueno uno", "malo", "bueno dos"]).2.2.1 ("bueno dos")
      (by simp) [1] (by rfl)

/-! ### The margin/keyword retrieval policy variant (part_004)

part_004 line 47 reads `const ranked = knowledge.map(...)`, but no
declaration binds `knowledge`: the import on line 1 binds `knowledgeBase`.
As written the file does not typecheck (`tsc`: Cannot find name
'knowledge'), and executed as plain JavaScript every call that passes the
embedding-length check throws a `ReferenceError` before any gate runs;
`retrieveContextAsWritten` models that behavior.  The remaining
definitions model the evident intent (rank the imported store), against
which the gate logic of the claims is stated. -/

namespace Variant

/-- The Spanish stopword set of part_004 lines 4-27 (`STOPWORDS`). -/
def STOPWORDS : List String :=
  ["a", "acá", "ahí", "al", "algo", "algunas", "algunos", "allá", "allí",
   "ambos", "ante", "antes", "aquel", "aquella", "aquellas", "aquellos",
   "aquí", "arriba", "así", "atrás", "aun", "aunque", "bajo", "bien",
   "cabe", "cada", "casi", "cierto", "como", "con", "conmigo", "conseguir",
   "consigo", "contigo", "contra", "cual", "cuales", "cualquier", "cuando",
   "de", "debajo", "dejar", "del", "demás", "demasiado", "dentro", "desde",
   "donde", "dos", "el", "ella", "ellas", "ellos", "en", "entre", "era",
   "erais", "éramos", "eran", "eres", "es", "esa", "esas", "ese", "eso",
   "esos", "esta", "estaba", "estado", "estáis", "estamos", "estan",
   "estar", "este", "esto", "estos", "estoy", "fin", "fue", "fueron",
   "fui", "fuimos", "gueno", "ha", "hace", "haces", "hacéis", "hacemos",
   "hacen", "hacer", "hacia", "hago", "incluso", "jamás", "junto", "la",
   "largo", "las", "lo", "los", "mientras", "mio", "mis", "misma", "mismas",
   "mismo", "mismos", "modo", "mucho", "muy", "nos", "nosotros", "nuestra",
   "nuestras", "nuestro", "nuestros", "nunca", "otra", "otras", "otro",
   "otros", "para", "pero", "por", "porque", "primero", "puede", "pueden",
   "puedo", "pues", "que", "quien", "quienes", "quizas", "se", "segun",
   "ser", "si", "siendo", "sin", "sobre", "solamente", "solo", "somos",
   "soy", "su", "sus", "tal", "también", "tener", "tengo", "tiempo",
   "tiene", "tienen", "toda", "todas", "todo", "todos", "tras", "un",
   "una", "uno", "unos", "usted", "ustedes", "va", "vais", "vamos", "van",
   "varias", "varios", "verdad", "vosotras", "vosotros", "voy", "yo"]

/-- `MIN_THRESHOLD` of part_004 line 29. -/
def MIN_THRESHOLD : ℝ := 0.65

/-- `MARGIN` of part_004 line 30. -/
def MARGIN : ℝ := 0.05

/-- `MAX_CHUNKS` of part_004 line 31. -/
def MAX_CHUNKS : ℕ := 3

/-- A word character of the JavaScript regex `\W` without the Unicode
flag: `[A-Za-z0-9_]`. -/
def isWordChar (c : Char) : Bool :=
  (('a' ≤ c) && (c ≤ 'z')) || (('A' ≤ c) && (c ≤ 'Z')) ||
    (('0' ≤ c) && (c ≤ '9')) || (c == '_')

/-- Splitting a character list at maximal runs of non-word characters, as
`text.split(/\W+/)` does: a leading or trailing separator run contributes
an empty segment, and runs are merged.  The flag records whether the scan
is inside a separator run. -/
def wSplitAux : Bool → List Char → List Char → List (List Char)
  | _, [], acc => [acc.reverse]
  | inSep, c :: cs, acc =>
    if isWordChar c then wSplitAux false cs (c :: acc)
    else if inSep then wSplitAux true cs acc
    else acc.reverse :: wSplitAux true cs []

/-- `extractKeywords` from part_004 lines 33-38: lowercase, split at
non-word characters, keep words longer than `3` that are not stopwords. -/
def extractKeywords (text : String) : List String :=
  ((wSplitAux false (jsToLowerCase text).toList []).map fun cs => String.mk cs).filter
    fun w => decide (3 < w.length) && !(STOPWORDS.contains w)

/-- The `ranked` list of the variant (part_004 lines 47-50), in its
intended form: the store scored against the query embedding and sorted by
descending score.  The source reads the store from the identifier
`knowledge`, which no declaration binds — as written the line throws (see
`retrieveContextAsWritten`); this definition repairs the slip by ranking a
store parameter, standing for the imported `knowledgeBase`. -/
def ranked (embedding : List ℝ) (store : List Chunk) : List Scored :=
  List.insertionSort descScore
    (store.map fun k => ⟨k.text, cosineSimilarity embedding k.embedding⟩)

/-- The keyword-gate phase of the variant (part_004 lines 63-87), in its
intended form (see `ranked`), reached once the best chunk passed the
threshold and margin checks: if no query keyword occurs in the best text
(case-insensitively), the result is empty; otherwise the chunks above the
threshold, capped at `MAX_CHUNKS`, are joined by blank lines. -/
def keywordPhase (question : String) (best : Scored)
    (rankedList : List Scored) : String :=
  let keywords := extractKeywords question
  let containsKeyword := keywords.any fun kw => jsIncludes (jsToLowerCase best.text) kw
  if !containsKeyword then ""
  else
    let relevant := (rankedList.filter fun r =>
      decide (MIN_THRESHOLD ≤ r.score)).take MAX_CHUNKS
    String.intercalate ("\n\n") (relevant.map Scored.text)

/-- `retrieveContext` of the variant (part_004 lines 40-88), in its
intended form (with the `knowledge`-for-`knowledgeBase` slip repaired, see
`ranked` and `retrieveContextAsWritten`): empty embedding, empty store, a
best score below `MIN_THRESHOLD`, or a top-2 score within `MARGIN` of the
top-1 score each force the empty context; otherwise the keyword gate
decides. -/
def retrieveContext (question : String) (embedding : List ℝ)
    (store : List Chunk) : String :=
  if embedding.length = 0 then ""
  else
    match ranked embedding store with
    | [] => ""
    | best :: rest =>
      if best.score < MIN_THRESHOLD then ""
      else
        match rest with
        | second :: rest2 =>
          if best.score - second.score < MARGIN then ""
          else keywordPhase question best (best :: second :: rest2)
        | [] => keywordPhase question best [best]

/-- part_004 `retrieveContext` as written: past the early return for an
empty embedding (line 44), line 47 evaluates `knowledge.map`, and
`knowledge` is bound by no declaration (line 1 imports `knowledgeBase`),
so the call throws a `ReferenceError` — no gate below line 47 is ever
reached, whatever the imported store holds. -/
def retrieveContextAsWritten (_question : String) (embedding : List ℝ) :
    Except String String :=
  if embedding.length = 0 then Except.ok ""
  else Except.error ("ReferenceError: knowledge is not defined")

end Variant

/-- The margin gate of the intended variant: whenever the top-1 and top-2
ranked scores differ by less than `MARGIN`, the result is the empty
context. -/
lemma variant_margin_gate_intended (question : String) (embedding : List ℝ)
    (store : List Chunk) (best second : Scored) (rest : List Scored)
    (hrank : Variant.ranked embedding store = best :: second :: rest)
    (h1 : Variant.MIN_THRESHOLD ≤ best.score)
    (_h2 : Variant.MIN_THRESHOLD ≤ second.score)
    (hm : best.score - second.score < Variant.MARGIN) :
    Variant.retrieveContext question embedding store = "" := by
  rw [Variant.retrieveContext, hrank]
  by_cases he : embedding.length = 0
  · rw [if_pos he]
  · rw [if_neg he]
    dsimp only
    rw [if_neg (not_lt.mpr h1), if_pos hm]

/-- C6 (code bug): as written, part_004 reads the undefined identifier
`knowledge`, so every call that passes the embedding-length check throws a
`ReferenceError` instead of reaching the margin check — shown at the
failing input `("pregunta", [1])`.  Under the evident intent (ranking the
imported store), the claim holds: whenever the top-1 and top-2 ranked
scores differ by less than `MARGIN`, the result is the empty context, even
when both scores meet `MIN_THRESHOLD`. -/
theorem variant_margin_gate_code_bug :
    Variant.retrieveContextAsWritten ("pregunta") [1] =
      Except.error ("ReferenceError: knowledge is not defined") ∧
    (∀ (question : String) (embedding : List ℝ) (store : List Chunk)
      (best second : Scored) (rest : List Scored),
      Variant.ranked embedding store = best :: second :: rest →
      Variant.MIN_THRESHOLD ≤ best.score →
      Variant.MIN_THRESHOLD ≤ second.score →
      best.score - second.score < Variant.MARGIN →
      Variant.retrieveContext question embedding store = "") :=
  ⟨rfl, fun question embedding store best second rest hrank h1 h2 hm =>
    variant_margin_gate_intended question embedding store best second rest
      hrank h1 h2 hm⟩

/-- Witness for C6: two identical passages tie at score `1`
(`1 ≥ MIN_THRESHOLD`), their gap `0` is below `MARGIN`, and the intended
retrieval of the two-chunk store yields the empty context. -/
theorem variant_margin_gate_code_bug_witness :
    Variant.retrieveContext ("pregunta")
      [1] [⟨"texto uno", [1], none⟩, ⟨"texto dos", [1], none⟩] = "" := by
  have hrank : Variant.ranked [1]
      [⟨"texto uno", [1], none⟩, ⟨"texto dos", [1], none⟩] =
      [⟨"texto uno", 1⟩, ⟨"texto dos", 1⟩] := by
    simp [Variant.ranked, cosineSimilarity_single_one, descScore]
  exact variant_margin_gate_code_bug.2 ("pregunta") [1] _ _ _ _ hrank
    (by norm_num [Variant.MIN_THRESHOLD]) (by norm_num [Variant.MIN_THRESHOLD])
    (by norm_num [Variant.MARGIN])

/-- The keyword gate of the intended variant: once the top chunk passed
the threshold and margin checks, a top text containing no query keyword
forces the empty context, and otherwise the chunks meeting the threshold,
capped at `MAX_CHUNKS`, are joined. -/
lemma variant_keyword_gate_intended (question : String) (embedding : List ℝ)
    (store : List Chunk) (best : Scored) (rest : List Scored)
    (he : embedding.length ≠ 0)
    (hrank : Variant.ranked embedding store = best :: rest)
    (hthr : Variant.MIN_THRESHOLD ≤ best.score)
    (hmargin : rest = [] ∨ ∃ second rest2, rest = second :: rest2 ∧
      Variant.MARGIN ≤ best.score - second.score) :
    ((Variant.extractKeywords question).any
        (fun kw => jsIncludes (jsToLowerCase best.text) kw) = false →
      Variant.retrieveContext question embedding store = "") ∧
    ((Variant.extractKeywords question).any
        (fun kw => jsIncludes (jsToLowerCase best.text) kw) = true →
      Variant.retrieveContext question embedding store =
        String.intercalate ("\n\n")
          ((((best :: rest).filter fun r =>
              decide (Variant.MIN_THRESHOLD ≤ r.score)).take
            Variant.MAX_CHUNKS).map Scored.text)) := by
  have htail : Variant.retrieveContext question embedding store =
      Variant.keywordPhase question best (best :: rest) := by
    rw [Variant.retrieveContext, hrank, if_neg he]
    dsimp only
    rw [if_neg (not_lt.mpr hthr)]
    rcases hmargin with hnil | ⟨second, rest2, hcons, hm⟩
    · subst hnil
      rfl
    · subst hcons
      dsimp only
      rw [if_neg (not_lt.mpr hm)]
  constructor
  · intro hno
    rw [htail, Variant.keywordPhase, hno]
    rfl
  · intro hyes
    rw [htail, Variant.keywordPhase, hyes]
    rfl

/-- C7 (code bug): as written, part_004 throws a `ReferenceError` on the
undefined identifier `knowledge` before the keyword gate can run — shown
at the failing input `("¿Cuáles horarios?", [1])`.  Under the evident
intent, the claim holds: once the top chunk passed the threshold and
margin checks, a top text that contains no query keyword
(case-insensitively) forces the empty context, and otherwise the result is
the chunks meeting the threshold, capped at `MAX_CHUNKS`, joined by blank
lines. -/
theorem variant_keyword_gate_code_bug :
    Variant.retrieveContextAsWritten ("¿Cuáles horarios?") [1] =
      Except.error ("ReferenceError: knowledge is not defined") ∧
    (∀ (question : String) (embedding : List ℝ) (store : List Chunk)
      (best : Scored) (rest : List Scored),
      embedding.length ≠ 0 →
      Variant.ranked embedding store = best :: rest →
      Variant.MIN_THRESHOLD ≤ best.score →
      (rest = [] ∨ ∃ second rest2, rest = second :: rest2 ∧
        Variant.MARGIN ≤ best.score - second.score) →
      ((Variant.extractKeywords question).any
          (fun kw => jsIncludes (jsToLowerCase best.text) kw) = false →
        Variant.retrieveContext question embedding store = "") ∧
      ((Variant.extractKeywords question).any
          (fun kw => jsIncludes (jsToLowerCase best.text) kw) = true →
        Variant.retrieveContext question embedding store =
          String.intercalate ("\n\n")
            ((((best :: rest).filter fun r =>
                decide (Variant.MIN_THRESHOLD ≤ r.score)).take
              Variant.MAX_CHUNKS).map Scored.text))) :=
  ⟨rfl, fun question embedding store best rest he hrank hthr hmargin =>
    variant_keyword_gate_intended question embedding store best rest
      he hrank hthr hmargin⟩

/-- Witness for C7: the single passage scores `1`, the query keyword
`horarios` occurs in it, and the intended retrieval returns the whole
passage. -/
theorem variant_keyword_gate_code_bug_witness :
    Variant.retrieveContext ("¿Cuáles horarios?")
      [1] [⟨"horarios de atencion oficina", [1], none⟩] =
      "horarios de atencion oficina" := by
  have hrank : Variant.ranked [1] [⟨"horarios de atencion oficina", [1], none⟩] =
      [⟨"horarios de atencion oficina", 1⟩] := by
    simp [Variant.ranked, cosineSimilarity_single_one]
  have h := (variant_keyword_gate_code_bug.2 ("¿Cuáles horarios?") [1]
    [⟨"horarios de atencion oficina", [1], none⟩]
    ⟨"horarios de atencion oficina", 1⟩ [] (by decide) hrank
    (by norm_num [Variant.MIN_THRESHOLD]) (Or.inl rfl)).2 (by decide)
  rw [h]
  have hfil : decide (Variant.MIN_THRESHOLD ≤
      (Scored.mk ("horarios de atencion oficina") 1).score) = true :=
    decide_eq_true (by norm_num [Variant.MIN_THRESHOLD])
  simp only [hfil, Variant.MAX_CHUNKS, List.filter_cons_of_pos, List.filter_nil,
    List.take_succ_cons, List.take_nil, List.map_cons, List.map_nil]
  rfl

/-- Every branch of the intended variant returns the empty context when
the query has no extracted keywords. -/
lemma variant_no_keywords_intended (question : String) (embedding : List ℝ)
    (store : List Chunk)
    (hkw : Variant.extractKeywords question = []) :
    Variant.retrieveContext question embedding store = "" := by
  have hkp : ∀ best rl, Variant.keywordPhase question best rl = "" := by
    intro best rl
    rw [Variant.keywordPhase, hkw]
    rfl
  rw [Variant.retrieveContext]
  by_cases he : embedding.length = 0
  · rw [if_pos he]
  · rw [if_neg he]
    rcases hranked : Variant.ranked embedding store with _ | ⟨best, rest⟩
    · rfl
    · dsimp only
      by_cases hthr : best.score < Variant.MIN_THRESHOLD
      · rw [if_pos hthr]
      · rw [if_neg hthr]
        rcases rest with _ | ⟨second, rest2⟩
        · exact hkp _ _
        · dsimp only
          by_cases hm : best.score - second.score < Variant.MARGIN
          · rw [if_pos hm]
          · rw [if_neg hm]
            exact hkp _ _

/-- C10 (code bug): as written, a keyword-free query with a nonempty
embedding makes part_004 throw a `ReferenceError` on the undefined
identifier `knowledge` (not return the empty context) — shown at the
failing input `("¿que es?", [1])`.  Under the evident intent, the claim
holds: a query whose extracted keyword list is empty yields the empty
context, whatever the store and the embedding are. -/
theorem variant_no_keywords_code_bug :
    Variant.retrieveContextAsWritten ("¿que es?") [1] =
      Except.error ("ReferenceError: knowledge is not defined") ∧
    (∀ (question : String) (embedding : List ℝ) (store : List Chunk),
      Variant.extractKeywords question = [] →
      Variant.retrieveContext question embedding store = "") :=
  ⟨rfl, fun question embedding store hkw =>
    variant_no_keywords_intended question embedding store hkw⟩

/-- Witness for C10: the query consists only of stopwords and short words,
so even a store whose passage scores `1` yields the empty context in the
intended variant. -/
theorem variant_no_keywords_code_bug_witness :
    Variant.retrieveContext ("¿que es?")
      [1] [⟨"horarios de atencion oficina", [1], none⟩] = "" :=
  variant_no_keywords_code_bug.2 ("¿que es?") [1]
    [⟨"horarios de atencion oficina", [1], none⟩] (by decide)

/-! ### The hybrid groundedness validator (part_002 lines 186-302) -/

namespace Hybrid

/-- `SIM_ACCEPT` of part_002 line 186. -/
def SIM_ACCEPT : ℝ := 0.70

/-- `SIM_BLOCK` of part_002 line 187. -/
def SIM_BLOCK : ℝ := 0.60

/-- The validator's own `cosineSimilarity` (part_002 lines 189-195): the
dot product runs over the indices of `vecA` with missing entries of `vecB`
read as `0`, the norms run over each full vector, and a zero denominator
is replaced by `1e-9` (`normA * normB || 1e-9`). -/
def cosineSimilarity (vecA vecB : List ℝ) : ℝ :=
  let dot := ∑ i ∈ Finset.range vecA.length, vecA.getD i 0 * vecB.getD i 0
  let normA := Real.sqrt (∑ i ∈ Finset.range vecA.length, vecA.getD i 0 * vecA.getD i 0)
  let normB := Real.sqrt (∑ i ∈ Finset.range vecB.length, vecB.getD i 0 * vecB.getD i 0)
  let denom := if normA * normB = 0 then 1e-9 else normA * normB
  dot / denom

/-- Splitting a character list at maximal runs of at least two newline
characters, as `context.split(/\n{2,}/g)` does.  The flag records whether
the scan is inside a separator run (where further newlines are absorbed). -/
def blankSplitAux : Bool → List Char → List Char → List (List Char)
  | true, [], _ => [[]]
  | false, [], acc => [acc.reverse]
  | true, '\n' :: rest, acc => blankSplitAux true rest acc
  | true, c :: rest, _ => blankSplitAux false rest [c]
  | false, '\n' :: '\n' :: rest, acc => acc.reverse :: blankSplitAux true rest []
  | false, c :: rest, acc => blankSplitAux false rest (c :: acc)

/-- `splitContextChunks` from part_002 lines 215-222: split the context at
blank lines, trim each piece, drop empties, and cap at six chunks. -/
def splitContextChunks (context : String) : List String :=
  (((blankSplitAux false context.toList []).map fun cs =>
    jsTrim (String.mk cs)).filter fun s => decide (0 < s.length)).take 6

/-- The effect of `normalize("NFD").replace(/[̀-ͯ]/g, "")` on the
lowercased Spanish letters this code base meets: precomposed accented
vowels and `ñ` decompose into their base letter plus a combining mark,
and the mark is then stripped.  (The input is already lowercased by
`jsToLowerCase`, so uppercase accented letters do not reach this map.) -/
def deaccentChar (c : Char) : Char :=
  if c = 'á' then 'a'
  else if c = 'é' then 'e'
  else if c = 'í' then 'i'
  else if c = 'ó' then 'o'
  else if c = 'ú' ∨ c = 'ü' then 'u'
  else if c = 'ñ' then 'n'
  else c

/-- A standalone combining mark of the range `[̀-ͯ]`. -/
def isCombiningMark (c : Char) : Bool :=
  (0x300 ≤ c.toNat) && (c.toNat ≤ 0x36F)

/-- `normalizeText` from part_002 lines 225-232: lowercase, strip accents,
replace everything that is not a lowercase letter, digit or whitespace by
a space, collapse whitespace runs, and trim.  (After accent stripping the
accented letters the source regex would additionally keep no longer
occur.) -/
def normalizeText (s : String) : String :=
  let folded := ((jsToLowerCase s).toList.map deaccentChar).filter fun c =>
    !(isCombiningMark c)
  let replaced := folded.map fun c =>
    if (('a' ≤ c) && (c ≤ 'z')) || (('0' ≤ c) && (c ≤ '9')) || c.isWhitespace
    then c else ' '
  String.intercalate (" ")
    (((String.mk replaced).split fun c => c.isWhitespace).filter fun t => !t.isEmpty)

/-- The stopword list of `tokenSet` (part_002 line 234). -/
def stopLex : List String :=
  ["la", "el", "los", "las", "de", "del", "y", "o", "u", "a", "en", "con",
   "para", "por", "un", "una", "que", "se", "es", "al", "lo"]

/-- `tokenSet` from part_002 lines 233-237: normalized tokens longer than
two characters that are not stopwords, as a set. -/
def tokenSet (s : String) : Finset String :=
  ((((normalizeText s).split fun c => c = ' ').filter fun w =>
    !w.isEmpty && !(stopLex.contains w) && decide (2 < w.length)).toFinset)

/-- `jaccard` from part_002 lines 238-243, with `union || 1` guarding the
empty case. -/
def jaccard (a b : Finset String) : ℝ :=
  let inter := (a ∩ b).card
  let union := a.card + b.card - inter
  (inter : ℝ) / (if union = 0 then 1 else (union : ℝ))

/-- The refusal marker matched by the pass-through check of
`validateResponseHybrid` (part_002 line 251). -/
def refusalNotice : String := "⚠️ no hay información relevante"

/-- The canonical refusal answer (part_002 lines 257, 281, 300). -/
def canonicalRefusal : String :=
  "⚠️ No hay información relevante en la base de conocimiento."

/-- `validateResponseHybrid` from part_002 lines 246-302.  The embedding
backend is the oracle `embed` (part_002's `getEmbedding` returns `[]` on
any failure and never throws, so the lexical fallback runs exactly when
the answer embedding comes back empty); `fmt3` models `toFixed(3)` in the
low-confidence marker. -/
def validateResponseHybrid (embed : String → List ℝ) (fmt3 : ℝ → String)
    (respuesta context : String) : String :=
  let cleanResp := jsTrim respuesta
  let cleanCtx := jsTrim context
  if jsIncludes (jsToLowerCase cleanResp) refusalNotice then respuesta
  else if cleanCtx = "" then canonicalRefusal
  else
    let chunks := splitContextChunks cleanCtx
    let respEmb := embed cleanResp
    if respEmb.length ≠ 0 then
      let maxSim := (((chunks.map embed).filter fun e =>
        decide (e.length ≠ 0)).map fun e => cosineSimilarity respEmb e).foldl max (-1)
      if SIM_ACCEPT ≤ maxSim then respuesta
      else if maxSim < SIM_BLOCK then canonicalRefusal
      else ("ℹ️ (Confianza media, similitud ") ++ fmt3 maxSim ++ (")\n") ++ respuesta
    else
      let respSet := tokenSet cleanResp
      let scores := chunks.map fun ch => jaccard respSet (tokenSet ch)
      let best := scores.foldl max 0
      if (0.20 : ℝ) ≤ best then respuesta
      else if best < (0.12 : ℝ) then canonicalRefusal
      else ("ℹ️ (Confianza media)\n") ++ respuesta

end Hybrid

/-- C5: the validator is idempotent on its canonical refusal: for every
context it returns the refusal unchanged, and the result does not depend
on the embedding backend (`embed` and `fmt3` are arbitrary), so no backend
call is needed to decide it. -/
theorem validate_refusal_idempotent (embed : String → List ℝ)
    (fmt3 : ℝ → String) (context : String) :
    Hybrid.validateResponseHybrid embed fmt3 Hybrid.canonicalRefusal context =
      Hybrid.canonicalRefusal := by
  have hc : jsIncludes (jsToLowerCase (jsTrim Hybrid.canonicalRefusal))
      Hybrid.refusalNotice = true := by decide
  simp only [Hybrid.validateResponseHybrid]
  rw [if_pos hc]

/-- C9: the refusal pass-through check precedes every other check: any
answer whose trimmed, lowercased form contains the refusal marker is
returned unchanged for every context (including the blank one) and every
embedding backend. -/
theorem validate_passthrough_first (embed : String → List ℝ)
    (fmt3 : ℝ → String) (answer context : String)
    (h : jsIncludes (jsToLowerCase (jsTrim answer)) Hybrid.refusalNotice = true) :
    Hybrid.validateResponseHybrid embed fmt3 answer context = answer := by
  simp only [Hybrid.validateResponseHybrid]
  rw [if_pos h]

/-- Witness for C9: an answer that merely embeds the refusal phrase inside
other text is returned verbatim even against the blank context. -/
theorem validate_passthrough_first_witness :
    Hybrid.validateResponseHybrid (fun _ => []) (fun _ => "")
      ("Texto previo. ⚠️ no hay información relevante aquí.") "" =
      ("Texto previo. ⚠️ no hay información relevante aquí.") :=
  validate_passthrough_first (fun _ => []) (fun _ => "")
    ("Texto previo. ⚠️ no hay información relevante aquí.") "" (by decide)

/-- The pass-through check is case-insensitive also on the accented
letter: an all-uppercase refusal (capital `Ó` included) is lowercased to
the marker and passed through unchanged, as in JavaScript. -/
lemma validate_uppercase_marker_passes_through :
    Hybrid.validateResponseHybrid (fun _ => []) (fun _ => "")
      ("⚠️ NO HAY INFORMACIÓN RELEVANTE EN LA BASE DE CONOCIMIENTO.") "" =
      ("⚠️ NO HAY INFORMACIÓN RELEVANTE EN LA BASE DE CONOCIMIENTO.") := by
  have hc : jsIncludes (jsToLowerCase (jsTrim
      ("⚠️ NO HAY INFORMACIÓN RELEVANTE EN LA BASE DE CONOCIMIENTO.")))
      Hybrid.refusalNotice = true := by decide
  simp only [Hybrid.validateResponseHybrid]
  rw [if_pos hc]

/-- C4 counterexample: validated against the blank context, an answer that
embeds the refusal phrase inside other text is returned unchanged by the
pass-through check, so it is not replaced by the canonical refusal. -/
theorem validate_blank_context_cex :
    Hybrid.validateResponseHybrid (fun _ => []) (fun _ => "")
      ("Resumen: ⚠️ No hay información relevante en la base de conocimiento. La oficina abre a las 8.")
      "" =
      ("Resumen: ⚠️ No hay información relevante en la base de conocimiento. La oficina abre a las 8.") ∧
    ("Resumen: ⚠️ No hay información relevante en la base de conocimiento. La oficina abre a las 8.") ≠
      Hybrid.canonicalRefusal := by
  constructor
  · have hc : jsIncludes (jsToLowerCase (jsTrim
        ("Resumen: ⚠️ No hay información relevante en la base de conocimiento. La oficina abre a las 8.")))
        Hybrid.refusalNotice = true := by decide
    simp only [Hybrid.validateResponseHybrid]
    rw [if_pos hc]
  · decide

/-- C4 (amended): for every answer that does not contain the refusal
marker, validation against a blank context returns the canonical refusal;
answers containing the marker are instead passed through unchanged by the
earlier check (see the counterexample and C9). -/
theorem validate_blank_context_rejects (embed : String → List ℝ)
    (fmt3 : ℝ → String) (answer context : String)
    (hpass : jsIncludes (jsToLowerCase (jsTrim answer)) Hybrid.refusalNotice = false)
    (hctx : jsTrim context = "") :
    Hybrid.validateResponseHybrid embed fmt3 answer context =
      Hybrid.canonicalRefusal := by
  simp [Hybrid.validateResponseHybrid, hpass, hctx]

/-- Witness for the amended C4: an ordinary answer validated against a
whitespace-only context is replaced by the canonical refusal. -/
theorem validate_blank_context_rejects_witness :
    Hybrid.validateResponseHybrid (fun _ => []) (fun _ => "")
      ("Los horarios son de 8 a 5.") ("  ") = Hybrid.canonicalRefusal :=
  validate_blank_context_rejects (fun _ => []) (fun _ => "")
    ("Los horarios son de 8 a 5.") ("  ") (by decide) (by decide)

end Backchat
